import Mathlib

/-!
Verification of the rxn-onmt-utils vocabulary-extension and checkpoint-resizing subsystem.

Shallow embedding of the Python sources:
* `src/rxn/onmt_utils/model_resize.py` (current implementation), and
* `rxn_onmt_utils/model_resize.py` (legacy implementation),
* `src/rxn/onmt_utils/strip_model.py`.

Tensors are modelled as a shape (list of dimension sizes) together with flat,
row-major rational data.  Randomness consumed by `torch.Tensor.uniform_` and
produced by `torch.nn.init.xavier_uniform_` is modelled by abstract sample
streams: `uniform_(lo, hi)` writes `lo + (hi - lo) * u i` into position `i`
where `u` is a stream of unit-interval draws (this is exactly how a uniform
variate on `[lo, hi]` is produced from a unit uniform), and `xavier_uniform_`
(an external `torch` routine whose scaling constant is irrelevant here) writes
the values of a second abstract stream.  Uninitialised memory returned by the
`torch.Tensor(...)` constructor is modelled by a third arbitrary stream.
-/

namespace RxnOnmtUtils

/-- A torch tensor: `shape` is the list of dimension sizes and `data` the
flattened row-major contents. -/
structure Tensor where
  shape : List Nat
  data : List ℚ
  deriving Repr, DecidableEq

/-- Torch `t.dim()`: the number of dimensions. -/
def Tensor.dim (t : Tensor) : Nat := t.shape.length

/-- Number of scalar entries in one "row" (slice along the first dimension). -/
def Tensor.rowSize (t : Tensor) : Nat := (t.shape.drop 1).prod

/-- Row `i` of a tensor, as the corresponding contiguous chunk of the
row-major data. -/
def Tensor.row (t : Tensor) (i : Nat) : List ℚ :=
  (t.data.drop (i * t.rowSize)).take t.rowSize

/-- A tensor is well-formed when its data size matches its shape. -/
def Tensor.WF (t : Tensor) : Prop := t.data.length = t.shape.prod

/-- The random environment available to the initialisation routines:
`unit` is the stream of unit-interval uniform draws consumed by
`torch.Tensor.uniform_`, and `glorot` is the stream of values written by the
external `torch.nn.init.xavier_uniform_` routine. -/
structure Env where
  unit : Nat → ℚ
  glorot : Nat → ℚ

/-- Model of `parameters.data.uniform_(lo, hi)`: overwrite every entry with a fresh
uniform draw from `[lo, hi]`, obtained from the unit-uniform stream by the
affine map `lo + (hi - lo) * u`. -/
def uniformFill (u : Nat → ℚ) (lo hi : ℚ) (t : Tensor) : Tensor :=
  ⟨t.shape, (List.range t.data.length).map (fun i => lo + (hi - lo) * u i)⟩

/-- Model of `torch.nn.init.xavier_uniform_(parameters)`: an external torch routine
that overwrites every entry in place with a scaled random draw; modelled as
writing the abstract `glorot` stream. -/
def xavierUniform (env : Env) (t : Tensor) : Tensor :=
  ⟨t.shape, (List.range t.data.length).map env.glorot⟩

/-- Model of `parameters.data.zero_()`: set every entry to zero in place. -/
def zeroFill (t : Tensor) : Tensor :=
  ⟨t.shape, t.data.map (fun _ => 0)⟩

/-- The model options consulted by `init_parameters`. -/
structure ModelOpt where
  param_init : ℚ
  param_init_glorot : Bool

/-- The state of `parameters` after the first `if` of `init_parameters`
(the `param_init != 0.0` uniform fill). -/
def preInit (opt : ModelOpt) (env : Env) (parameters : Tensor) : Tensor :=
  if opt.param_init ≠ 0 then
    uniformFill env.unit (-opt.param_init) opt.param_init parameters
  else parameters

/-- Embedding of `init_parameters` of `src/rxn/onmt_utils/model_resize.py` (current
implementation): optional uniform fill, then, under the Glorot option,
`xavier_uniform_` for tensors of dimension `> 1` and `zero_` for tensors of
dimension `1`. -/
def init_parameters (opt : ModelOpt) (env : Env) (parameters : Tensor) : Tensor :=
  if opt.param_init_glorot then
    if 1 < (preInit opt env parameters).dim then xavierUniform env (preInit opt env parameters)
    else if (preInit opt env parameters).dim = 1 then zeroFill (preInit opt env parameters)
    else preInit opt env parameters
  else preInit opt env parameters

/-- Embedding of `init_parameters` of `rxn_onmt_utils/model_resize.py` (legacy
implementation): identical except that it has no `dim() == 1` branch, so a
one-dimensional tensor is left untouched by the Glorot option. -/
def init_parameters_legacy (opt : ModelOpt) (env : Env) (parameters : Tensor) : Tensor :=
  if opt.param_init_glorot then
    if 1 < (preInit opt env parameters).dim then xavierUniform env (preInit opt env parameters)
    else preInit opt env parameters
  else preInit opt env parameters

theorem preInit_shape (opt : ModelOpt) (env : Env) (t : Tensor) :
    (preInit opt env t).shape = t.shape := by
  unfold preInit uniformFill
  split <;> rfl

theorem preInit_dim (opt : ModelOpt) (env : Env) (t : Tensor) :
    (preInit opt env t).dim = t.dim := by
  unfold Tensor.dim
  rw [preInit_shape]

theorem preInit_data_length (opt : ModelOpt) (env : Env) (t : Tensor) :
    (preInit opt env t).data.length = t.data.length := by
  unfold preInit uniformFill
  split <;> simp

theorem init_parameters_shape (opt : ModelOpt) (env : Env) (t : Tensor) :
    (init_parameters opt env t).shape = t.shape := by
  have h1 := preInit_shape opt env t
  unfold init_parameters
  split
  · split
    · simpa [xavierUniform] using h1
    · split
      · simpa [zeroFill] using h1
      · exact h1
  · exact h1

theorem init_parameters_data_length (opt : ModelOpt) (env : Env) (t : Tensor) :
    (init_parameters opt env t).data.length = t.data.length := by
  have h1 := preInit_data_length opt env t
  unfold init_parameters
  split
  · split
    · simpa [xavierUniform] using h1
    · split
      · simpa [zeroFill] using h1
      · exact h1
  · exact h1

/-- The `torch.Tensor(sizes...)` constructor: allocates an uninitialised
tensor of the given sizes, whose contents are whatever values `mem` holds.
A negative size makes the allocation fail with a runtime error
("Trying to create tensor with negative dimension"), modelled as `none`. -/
def torchTensor (sizes : List Int) (mem : Nat → ℚ) : Option Tensor :=
  if sizes.all (fun s => decide (0 ≤ s)) then
    some ⟨sizes.map Int.toNat, (List.range (sizes.map Int.toNat).prod).map mem⟩
  else none

/-- Model of `torch.cat([a, b])`: concatenation along the first dimension; requires
both tensors to have at least one dimension and identical trailing
dimensions, and in row-major layout simply appends the data. -/
def torchCat (a b : Tensor) : Option Tensor :=
  match a.shape, b.shape with
  | n :: s₁, m :: s₂ =>
    if s₁ = s₂ then some ⟨(n + m) :: s₁, a.data ++ b.data⟩ else none
  | _, _ => none

/-- The fields of `torch.nn.Embedding` read and written by
`ModelResizer._resize_embedding`. -/
structure Embedding where
  num_embeddings : Nat
  embedding_dim : Nat
  padding_idx : Option Nat
  sparse : Bool
  weight : Tensor
  deriving Repr, DecidableEq

/-- The fields of `torch.nn.Linear` read and written by
`ModelResizer._resize_generator`. -/
structure Linear where
  in_features : Nat
  out_features : Nat
  weight : Tensor
  bias : Tensor
  deriving Repr, DecidableEq

namespace ModelResizer

/-- Embedding of `ModelResizer._resize_embedding(old_embeddings, num_added_tokens)` of
`src/rxn/onmt_utils/model_resize.py`: allocate a fresh
`(num_added_tokens, embedding_dim)` block, initialise it with
`init_parameters`, concatenate it below the old weight, and build a new
`nn.Embedding` carrying over `sparse` and `padding_idx`; loading the state
dict checks that the concatenated weight has the embedding's column count. -/
def resize_embedding (opt : ModelOpt) (env : Env) (mem : Nat → ℚ)
    (old_embeddings : Embedding) (num_added_tokens : Int) : Option Embedding :=
  match torchTensor [num_added_tokens, (old_embeddings.embedding_dim : Int)] mem with
  | none => none
  | some weight_extension =>
    match torchCat old_embeddings.weight (init_parameters opt env weight_extension) with
    | none => none
    | some new_weights =>
      if new_weights.shape.drop 1 = [old_embeddings.embedding_dim] then
        some ⟨new_weights.shape.headD 0, old_embeddings.embedding_dim,
          old_embeddings.padding_idx, old_embeddings.sparse, new_weights⟩
      else none

/-- Embedding of `ModelResizer._resize_generator()` of `src/rxn/onmt_utils/model_resize.py`,
abstracted over the surrounding object state: `tgt_vocab_len` stands for
`len(self.vocab["tgt"].base_field.vocab)` and `old_linear` for
`self.model.generator[0]`.  The number of added rows is recomputed here from
the target vocabulary's current length; the fresh weight and bias extensions
are initialised with `init_parameters` and concatenated below the old
parameters, and the new `nn.Linear(in_features, tgt_vocab_len)` checks on
`load_state_dict` that both tensors match its own shapes. -/
def resize_generator (opt : ModelOpt) (envW envB : Env) (memW memB : Nat → ℚ)
    (old_linear : Linear) (tgt_vocab_len : Nat) : Option Linear :=
  match torchTensor [(tgt_vocab_len : Int) - (old_linear.out_features : Int),
      (old_linear.in_features : Int)] memW with
  | none => none
  | some weight_extension =>
    match torchCat old_linear.weight (init_parameters opt envW weight_extension) with
    | none => none
    | some new_weights =>
      match torchTensor [(tgt_vocab_len : Int) - (old_linear.out_features : Int)] memB with
      | none => none
      | some bias_extension =>
        match torchCat old_linear.bias (init_parameters opt envB bias_extension) with
        | none => none
        | some new_bias =>
          if new_weights.shape = [tgt_vocab_len, old_linear.in_features] ∧
              new_bias.shape = [tgt_vocab_len] then
            some ⟨old_linear.in_features, tgt_vocab_len, new_weights, new_bias⟩
          else none

end ModelResizer

/-- Lookup in a Python `dict` modelled as an association list: the first
binding of the key, if any (`stoi[t]` / `t in stoi`). -/
def dictFind {α : Type} (k : String) : List (String × α) → Option α
  | [] => none
  | (k₂, v) :: rest => if k = k₂ then some v else dictFind k rest

/-- Assignment `d[k] = v` on a Python `dict` modelled as an association
list: update the binding in place if the key is present, append a new
binding otherwise. -/
def dictSet {α : Type} (d : List (String × α)) (k : String) (v : α) :
    List (String × α) :=
  if (dictFind k d).isSome then
    d.map (fun kv => if kv.1 = k then (k, v) else kv)
  else d ++ [(k, v)]

/-- A torchtext vocabulary object as used by `ModelResizer`: the ordered
token list `itos` and the reverse token-to-index dictionary `stoi`. -/
structure Vocab where
  itos : List String
  stoi : List (String × Nat)
  deriving Repr, DecidableEq

/-- The invariant of a vocabulary field: tokens are pairwise distinct, every
token of `itos` maps back to its own position through `stoi`, and every
binding of `stoi` points at an in-range position of `itos` holding its own
token (hence indices are exactly `0, ..., len(itos) - 1`). -/
def Vocab.WF (v : Vocab) : Prop :=
  v.itos.Nodup ∧
  (∀ i : Fin v.itos.length, dictFind (v.itos.get i) v.stoi = some i.val) ∧
  (∀ p ∈ v.stoi, p.2 < v.itos.length ∧ v.itos.getD p.2 "" = p.1)

instance (v : Vocab) : Decidable v.WF := by
  unfold Vocab.WF
  infer_instance

namespace ModelResizer

/-- The loop body of `ModelResizer._extend_field_vocab`: for one candidate
token `t`, if `t not in stoi`, append `t` to `added_tokens` and to `itos`,
and bind `stoi[t]` to `len(itos) - 1` computed after the append. -/
def extendStep (acc : Vocab × List String) (t : String) : Vocab × List String :=
  if (dictFind t acc.1.stoi).isSome then acc
  else
    (⟨acc.1.itos ++ [t], acc.1.stoi ++ [(t, (acc.1.itos ++ [t]).length - 1)]⟩,
      acc.2 ++ [t])

/-- Embedding of `ModelResizer._extend_field_vocab(new_vocab, field)` of
`src/rxn/onmt_utils/model_resize.py`, abstracted over the object state:
`cur` stands for `self.vocab[field].base_field.vocab` and `newItos` for
`new_vocab[field].base_field.vocab.itos`.  Returns the mutated field
together with the `added_tokens` list. -/
def extend_field_vocab (cur : Vocab) (newItos : List String) :
    Vocab × List String :=
  newItos.foldl extendStep (cur, [])

end ModelResizer

/-- Embedding of `strip_model(model_in, model_out)` of
`src/rxn/onmt_utils/strip_model.py`, restricted to its in-memory effect on
the loaded checkpoint dictionary: `loaded_model["optim"] = None`.  The
checkpoint is an association list of nullable entries. -/
def strip_model {γ : Type} (loaded_model : List (String × Option γ)) :
    List (String × Option γ) :=
  dictSet loaded_model "optim" none

/-- Whether `pat` starts the character list `s` (helper for Python's substring
containment test). -/
def leadsWith : List Char → List Char → Bool
  | [], _ => true
  | _ :: _, [] => false
  | a :: as, b :: bs => a = b && leadsWith as bs

/-- Whether `pat` occurs contiguously somewhere in the character list `s`. -/
def occursIn (pat : List Char) : List Char → Bool
  | [] => leadsWith pat []
  | s@(_ :: rest) => leadsWith pat s || occursIn pat rest

/-- Python's substring containment `pat in s`. -/
def pyIn (pat s : String) : Bool := occursIn pat.toList s.toList

/-- The parameters of the ONMT model held by a `ModelResizer`, as the two
module groups relevant to `save_checkpoint`: the parameters of the base
model (keyed by their full names, which never mention the generator) and
the parameters of the `generator` submodule (keyed relative to it).  In
`self.model.state_dict()` the latter appear under keys starting with
`"generator."`, while `self.model.generator.state_dict()` lists them under
their relative keys. -/
structure ResizerModel where
  base_named_parameters : List (String × Tensor)
  generator_named_parameters : List (String × Tensor)

/-- Model of `self.model.state_dict()`: base parameters under their own names,
generator parameters under `"generator."`-qualified names. -/
def ResizerModel.state_dict (m : ResizerModel) : List (String × Tensor) :=
  m.base_named_parameters ++
    m.generator_named_parameters.map (fun kv => ("generator." ++ kv.1, kv.2))

/-- The checkpoint record written by `ModelResizer.save_checkpoint`; the
optimizer-state blob is opaque, hence the type parameter. -/
structure Checkpoint (β : Type) where
  model : List (String × Tensor)
  generator : List (String × Tensor)
  vocab : List (String × Vocab)
  opt : ModelOpt
  optim : β

/-- The object state of a `ModelResizer` consulted by `save_checkpoint`:
the (resized) model, `self.vocab`, `self.model_opt`, and the `"optim"`
entry of the originally loaded checkpoint. -/
structure ResizerState (β : Type) where
  model : ResizerModel
  vocab : List (String × Vocab)
  model_opt : ModelOpt
  loaded_optim : β

namespace ModelResizer

/-- Embedding of `ModelResizer.save_checkpoint(save_path)` of
`src/rxn/onmt_utils/model_resize.py`, restricted to the checkpoint record
it builds: the full state dict minus every key containing `"generator"`,
the generator's own state dict, `self.vocab`, `self.model_opt`, and the
loaded checkpoint's `"optim"` entry passed through. -/
def save_checkpoint {β : Type} (s : ResizerState β) : Checkpoint β :=
  { model := s.model.state_dict.filter (fun kv => !(pyIn "generator" kv.1)),
    generator := s.model.generator_named_parameters,
    vocab := s.vocab,
    opt := s.model_opt,
    optim := s.loaded_optim }

end ModelResizer

/-! ## Dictionary lemmas -/

theorem dictFind_append {α : Type} (k : String) (a b : List (String × α)) :
    dictFind k (a ++ b) = (dictFind k a).or (dictFind k b) := by
  induction a with
  | nil => simp [dictFind]
  | cons hd tl ih =>
    by_cases h : k = hd.1
    · simp [dictFind, h]
    · simpa [dictFind, h] using ih

theorem dictFind_map_update {α : Type} (k : String) (v : α)
    (d : List (String × α)) (h : (dictFind k d).isSome) :
    dictFind k (d.map (fun kv => if kv.1 = k then (k, v) else kv)) = some v := by
  induction d with
  | nil => simp [dictFind] at h
  | cons hd tl ih =>
    obtain ⟨k₂, w⟩ := hd
    by_cases hk : k₂ = k
    · subst hk
      simp only [List.map_cons]
      simp only [if_true]
      simp [dictFind]
    · have hk₂ : ¬k = k₂ := fun hh => hk hh.symm
      simp only [dictFind, if_neg hk₂] at h
      simp only [List.map_cons]
      rw [if_neg hk]
      simp only [dictFind, if_neg hk₂]
      exact ih h

theorem dictFind_map_update_ne {α : Type} (k k' : String) (v : α)
    (d : List (String × α)) (h : k' ≠ k) :
    dictFind k' (d.map (fun kv => if kv.1 = k then (k, v) else kv)) =
      dictFind k' d := by
  induction d with
  | nil => simp [dictFind]
  | cons hd tl ih =>
    obtain ⟨k₂, w⟩ := hd
    by_cases hk : k₂ = k
    · subst hk
      simp only [List.map_cons]
      simp only [if_true]
      simp [dictFind, h, ih]
    · simp only [List.map_cons]
      rw [if_neg hk]
      simp only [dictFind]
      rw [ih]

theorem dictFind_dictSet_self {α : Type} (d : List (String × α)) (k : String)
    (v : α) : dictFind k (dictSet d k v) = some v := by
  unfold dictSet
  split
  · exact dictFind_map_update k v d (by assumption)
  · rename_i h
    rw [dictFind_append]
    rcases hfind : dictFind k d with _ | w
    · simp [dictFind]
    · exact absurd (by rw [hfind]; rfl) h

theorem dictFind_dictSet_ne {α : Type} (d : List (String × α)) (k k' : String)
    (v : α) (h : k' ≠ k) : dictFind k' (dictSet d k v) = dictFind k' d := by
  unfold dictSet
  split
  · exact dictFind_map_update_ne k k' v d h
  · rw [dictFind_append]
    simp [dictFind, h]

/-! ## Claim C8 -/

/-- Claim C8: For every checkpoint record, `strip_model` produces an output
whose optimizer-state entry is set to `None` while every other entry is
identical to the corresponding entry of the input. -/
theorem strip_model_C8 {γ : Type} (loaded_model : List (String × Option γ)) :
    dictFind "optim" (strip_model loaded_model) = some none ∧
    ∀ k, k ≠ "optim" →
      dictFind k (strip_model loaded_model) = dictFind k loaded_model :=
  ⟨dictFind_dictSet_self loaded_model "optim" none,
    fun _ h => dictFind_dictSet_ne loaded_model "optim" _ none h⟩

/-- Witness for C8 at a concrete two-entry checkpoint. -/
theorem strip_model_C8_witness :
    "model" ≠ "optim" ∧
    dictFind "model" (strip_model [("model", some 1), ("optim", some 2)]) =
      dictFind "model" [("model", some (1 : Nat)), ("optim", some 2)] :=
  ⟨by decide, (strip_model_C8 [("model", some 1), ("optim", some 2)]).2
    "model" (by decide)⟩

/-! ## Claim C9 -/

/-- Claim C9: Whenever the embedding resize succeeds, the padding index and the
sparsity flag of the resized embedding are identical to those of the input
embedding. -/
theorem resize_embedding_C9 (opt : ModelOpt) (env : Env) (mem : Nat → ℚ)
    (old_embeddings : Embedding) (num_added_tokens : Int)
    (new_embeddings : Embedding)
    (h : ModelResizer.resize_embedding opt env mem old_embeddings
      num_added_tokens = some new_embeddings) :
    new_embeddings.padding_idx = old_embeddings.padding_idx ∧
    new_embeddings.sparse = old_embeddings.sparse := by
  unfold ModelResizer.resize_embedding at h
  split at h
  · exact Option.noConfusion h
  · split at h
    · exact Option.noConfusion h
    · split at h
      · cases h
        exact ⟨rfl, rfl⟩
      · exact Option.noConfusion h

/-- Witness for C9: a concrete `(1, 1)` embedding resized by one token. -/
theorem resize_embedding_C9_witness :
    ModelResizer.resize_embedding ⟨0, false⟩ ⟨fun _ => 0, fun _ => 0⟩
        (fun _ => 7) ⟨1, 1, some 0, true, ⟨[1, 1], [3]⟩⟩ 1 =
      some ⟨2, 1, some 0, true, ⟨[2, 1], [3, 7]⟩⟩ ∧
    ((⟨2, 1, some 0, true, ⟨[2, 1], [3, 7]⟩⟩ : Embedding).padding_idx =
        (⟨1, 1, some 0, true, ⟨[1, 1], [3]⟩⟩ : Embedding).padding_idx ∧
      (⟨2, 1, some 0, true, ⟨[2, 1], [3, 7]⟩⟩ : Embedding).sparse =
        (⟨1, 1, some 0, true, ⟨[1, 1], [3]⟩⟩ : Embedding).sparse) :=
  ⟨by decide, resize_embedding_C9 ⟨0, false⟩ ⟨fun _ => 0, fun _ => 0⟩
    (fun _ => 7) ⟨1, 1, some 0, true, ⟨[1, 1], [3]⟩⟩ 1
    ⟨2, 1, some 0, true, ⟨[2, 1], [3, 7]⟩⟩ (by decide)⟩

/-! ## Claim C4 -/

/-- Claim C4: If the target vocabulary size is smaller than the current
projection size (a negative added-token count), the generator resize fails
with an error — raised when `torch.Tensor` refuses the negative dimension —
rather than silently truncating. -/
theorem resize_generator_C4 (opt : ModelOpt) (envW envB : Env)
    (memW memB : Nat → ℚ) (old_linear : Linear) (tgt_vocab_len : Nat)
    (h : tgt_vocab_len < old_linear.out_features) :
    ModelResizer.resize_generator opt envW envB memW memB old_linear
      tgt_vocab_len = none := by
  have hneg : ¬(0 ≤ (tgt_vocab_len : Int) - (old_linear.out_features : Int)) := by
    omega
  unfold ModelResizer.resize_generator
  have halloc : torchTensor [(tgt_vocab_len : Int) - (old_linear.out_features : Int),
      (old_linear.in_features : Int)] memW = none := by
    unfold torchTensor
    rw [if_neg]
    simp only [List.all_cons, Bool.and_eq_true, decide_eq_true_eq]
    intro hc
    exact hneg hc.1
  rw [halloc]

/-- Witness for C4: shrinking a 2-row projection to 1 row fails. -/
theorem resize_generator_C4_witness :
    1 < (⟨3, 2, ⟨[2, 3], [1, 2, 3, 4, 5, 6]⟩, ⟨[2], [1, 2]⟩⟩ : Linear).out_features ∧
    ModelResizer.resize_generator ⟨0, false⟩ ⟨fun _ => 0, fun _ => 0⟩
      ⟨fun _ => 0, fun _ => 0⟩ (fun _ => 0) (fun _ => 0)
      ⟨3, 2, ⟨[2, 3], [1, 2, 3, 4, 5, 6]⟩, ⟨[2], [1, 2]⟩⟩ 1 = none :=
  ⟨by decide, resize_generator_C4 _ _ _ _ _ _ _ (by decide)⟩

/-! ## Claim C10 -/

/-- Claim C10, counterexample: The current and the legacy `init_parameters` do
not agree on 1-dimensional tensors when the Glorot option is enabled: the
current implementation zeroes the data, the legacy one leaves it unchanged. -/
theorem init_parameters_C10_counterexample :
    init_parameters ⟨0, true⟩ ⟨fun _ => 0, fun _ => 0⟩ ⟨[1], [5]⟩ ≠
      init_parameters_legacy ⟨0, true⟩ ⟨fun _ => 0, fun _ => 0⟩ ⟨[1], [5]⟩ := by
  decide

/-- Claim C10, amended: The two implementations of `init_parameters` agree on
every configuration and tensor except when the Glorot option is enabled and
the tensor is 1-dimensional (where the current implementation zeroes the
tensor and the legacy one does not touch it). -/
theorem init_parameters_C10_amended (opt : ModelOpt) (env : Env) (p : Tensor)
    (h : ¬(opt.param_init_glorot = true ∧ p.dim = 1)) :
    init_parameters opt env p = init_parameters_legacy opt env p := by
  unfold init_parameters init_parameters_legacy
  by_cases hg : opt.param_init_glorot = true
  · have hne : (preInit opt env p).dim ≠ 1 := by
      rw [preInit_dim]
      exact fun hh => h ⟨hg, hh⟩
    rw [if_pos hg, if_pos hg]
    by_cases h1 : 1 < (preInit opt env p).dim
    · rw [if_pos h1, if_pos h1]
    · rw [if_neg h1, if_neg h1, if_neg hne]
  · rw [if_neg hg, if_neg hg]

/-- Witness for the amended C10: a 1-dimensional tensor with the Glorot
option disabled is initialised identically by the two implementations. -/
theorem init_parameters_C10_amended_witness :
    ¬((⟨1, false⟩ : ModelOpt).param_init_glorot = true ∧
        (⟨[1], [5]⟩ : Tensor).dim = 1) ∧
    init_parameters ⟨1, false⟩ ⟨fun _ => 0, fun _ => 0⟩ ⟨[1], [5]⟩ =
      init_parameters_legacy ⟨1, false⟩ ⟨fun _ => 0, fun _ => 0⟩ ⟨[1], [5]⟩ :=
  ⟨by decide, init_parameters_C10_amended _ _ _ (by decide)⟩

/-! ## Claim C5 -/

/-- Claim C5: `init_parameters` on a newly allocated tensor: with a nonzero
uniform-range option (and no Glorot option overwriting it afterwards) it
fills the tensor with uniform draws from `[-param_init, param_init]`, all of
which lie in that interval; with the Glorot option and `dim > 1` it applies
the external Glorot/Xavier initialisation; with the Glorot option and
`dim == 1` it sets every value to zero. -/
theorem init_parameters_C5 (opt : ModelOpt) (env : Env) (p : Tensor)
    (hu : ∀ i, 0 ≤ env.unit i ∧ env.unit i ≤ 1)
    (hr : 0 ≤ opt.param_init) :
    (opt.param_init ≠ 0 → opt.param_init_glorot = false →
        init_parameters opt env p =
          uniformFill env.unit (-opt.param_init) opt.param_init p ∧
        ∀ x ∈ (init_parameters opt env p).data,
          -opt.param_init ≤ x ∧ x ≤ opt.param_init) ∧
    (opt.param_init_glorot = true → 1 < p.dim →
        init_parameters opt env p = xavierUniform env (preInit opt env p)) ∧
    (opt.param_init_glorot = true → p.dim = 1 →
        ∀ x ∈ (init_parameters opt env p).data, x = 0) := by
  refine ⟨fun hnz hgf => ?_, fun hg h1 => ?_, fun hg h1 => ?_⟩
  · have heq : init_parameters opt env p =
        uniformFill env.unit (-opt.param_init) opt.param_init p := by
      unfold init_parameters preInit
      rw [if_neg (by simp [hgf]), if_pos hnz]
    refine ⟨heq, ?_⟩
    rw [heq]
    intro x hx
    simp only [uniformFill, List.mem_map, List.mem_range] at hx
    obtain ⟨i, -, rfl⟩ := hx
    obtain ⟨hu0, hu1⟩ := hu i
    constructor
    · nlinarith
    · nlinarith
  · unfold init_parameters
    rw [if_pos hg, if_pos (by rw [preInit_dim]; exact h1)]
  · unfold init_parameters
    rw [if_pos hg, if_neg (by rw [preInit_dim, h1]; omega),
      if_pos (by rw [preInit_dim]; exact h1)]
    intro x hx
    simp only [zeroFill, List.mem_map] at hx
    obtain ⟨y, -, rfl⟩ := hx
    rfl

/-- Witness for C5: the Glorot option zeroes a concrete 1-dimensional
tensor. -/
theorem init_parameters_C5_witness :
    (∀ i, 0 ≤ (⟨fun _ => 1/2, fun _ => 0⟩ : Env).unit i ∧
        (⟨fun _ => 1/2, fun _ => 0⟩ : Env).unit i ≤ 1) ∧
    (0 : ℚ) ≤ (⟨0, true⟩ : ModelOpt).param_init ∧
    ∀ x ∈ (init_parameters ⟨0, true⟩ ⟨fun _ => 1/2, fun _ => 0⟩
        ⟨[2], [3, 4]⟩).data, x = 0 :=
  ⟨fun i => ⟨by norm_num, by norm_num⟩, by norm_num,
    (init_parameters_C5 ⟨0, true⟩ ⟨fun _ => 1/2, fun _ => 0⟩ ⟨[2], [3, 4]⟩
      (fun i => ⟨by norm_num, by norm_num⟩) (by norm_num)).2.2 rfl rfl⟩

/-! ## Claim C1 -/

theorem torchCat_eq (a b : Tensor) (n m : Nat) (s : List Nat)
    (ha : a.shape = n :: s) (hb : b.shape = m :: s) :
    torchCat a b = some ⟨(n + m) :: s, a.data ++ b.data⟩ := by
  unfold torchCat
  rw [ha, hb]
  simp

theorem torchTensor_two (n d : Nat) (mem : Nat → ℚ) :
    torchTensor [(n : Int), (d : Int)] mem =
      some ⟨[n, d], (List.range (n * d)).map mem⟩ := by
  unfold torchTensor
  rw [if_pos (by simp)]
  simp

theorem torchTensor_one (n : Nat) (mem : Nat → ℚ) :
    torchTensor [(n : Int)] mem = some ⟨[n], (List.range n).map mem⟩ := by
  unfold torchTensor
  rw [if_pos (by simp)]
  simp

/-- Claim C1: For every embedding matrix of shape `(V, D)` and every count
`n ≥ 0` of newly added tokens, the embedding resize returns a matrix of
shape `(V + n, D)` whose first `V` rows are exactly the rows of the input
matrix, and whose remaining rows are exactly the freshly allocated block
after being passed to the parameter initialiser. -/
theorem resize_embedding_C1 (opt : ModelOpt) (env : Env) (mem : Nat → ℚ)
    (old_embeddings : Embedding) (V D n : Nat)
    (hshape : old_embeddings.weight.shape = [V, D])
    (hdim : old_embeddings.embedding_dim = D)
    (hlen : old_embeddings.weight.data.length = V * D) :
    ∃ new_embeddings : Embedding,
      ModelResizer.resize_embedding opt env mem old_embeddings (n : Int) =
        some new_embeddings ∧
      new_embeddings.weight.shape = [V + n, D] ∧
      new_embeddings.weight.data.take (V * D) = old_embeddings.weight.data ∧
      (∀ i < V, new_embeddings.weight.row i = old_embeddings.weight.row i) ∧
      new_embeddings.weight.data.drop (V * D) =
        (init_parameters opt env
          ⟨[n, D], (List.range (n * D)).map mem⟩).data := by
  subst hdim
  have hext_shape :
      (init_parameters opt env ⟨[n, old_embeddings.embedding_dim],
        (List.range (n * old_embeddings.embedding_dim)).map mem⟩).shape =
      [n, old_embeddings.embedding_dim] := init_parameters_shape _ _ _
  have hcat := torchCat_eq old_embeddings.weight
    (init_parameters opt env ⟨[n, old_embeddings.embedding_dim],
      (List.range (n * old_embeddings.embedding_dim)).map mem⟩)
    V n [old_embeddings.embedding_dim] hshape hext_shape
  refine ⟨⟨V + n, old_embeddings.embedding_dim, old_embeddings.padding_idx,
    old_embeddings.sparse, ⟨(V + n) :: [old_embeddings.embedding_dim],
      old_embeddings.weight.data ++
        (init_parameters opt env ⟨[n, old_embeddings.embedding_dim],
          (List.range (n * old_embeddings.embedding_dim)).map mem⟩).data⟩⟩,
    ?_, rfl, List.take_left' hlen, ?_, List.drop_left' hlen⟩
  · unfold ModelResizer.resize_embedding
    simp only [torchTensor_two, hcat]
    simp
  · intro i hi
    have hmul : i * old_embeddings.embedding_dim + old_embeddings.embedding_dim ≤
        V * old_embeddings.embedding_dim := by
      have h1 : (i + 1) * old_embeddings.embedding_dim ≤
          V * old_embeddings.embedding_dim :=
        Nat.mul_le_mul hi (le_refl _)
      rw [Nat.succ_mul] at h1
      exact h1
    unfold Tensor.row Tensor.rowSize
    simp only [hshape, List.drop_succ_cons, List.drop_zero, List.prod_cons,
      List.prod_nil, mul_one]
    rw [List.drop_append_of_le_length
        (by rw [hlen]; exact le_trans (Nat.le_add_right _ _) hmul),
      List.take_append_of_le_length
        (by rw [List.length_drop, hlen]
            exact Nat.le_sub_of_add_le (by rw [Nat.add_comm]; exact hmul))]

/-- Witness for C1 at a concrete `(1, 1)` embedding extended by one row. -/
theorem resize_embedding_C1_witness :
    (⟨1, 1, some 0, true, ⟨[1, 1], [3]⟩⟩ : Embedding).weight.shape = [1, 1] ∧
    (⟨1, 1, some 0, true, ⟨[1, 1], [3]⟩⟩ : Embedding).embedding_dim = 1 ∧
    (⟨1, 1, some 0, true, ⟨[1, 1], [3]⟩⟩ : Embedding).weight.data.length = 1 * 1 ∧
    ∃ new_embeddings : Embedding,
      ModelResizer.resize_embedding ⟨0, false⟩ ⟨fun _ => 0, fun _ => 0⟩
          (fun _ => 7) ⟨1, 1, some 0, true, ⟨[1, 1], [3]⟩⟩ ((1 : Nat) : Int) =
        some new_embeddings ∧
      new_embeddings.weight.shape = [1 + 1, 1] ∧
      new_embeddings.weight.data.take (1 * 1) =
        (⟨1, 1, some 0, true, ⟨[1, 1], [3]⟩⟩ : Embedding).weight.data ∧
      (∀ i < 1, new_embeddings.weight.row i =
        (⟨1, 1, some 0, true, ⟨[1, 1], [3]⟩⟩ : Embedding).weight.row i) ∧
      new_embeddings.weight.data.drop (1 * 1) =
        (init_parameters ⟨0, false⟩ ⟨fun _ => 0, fun _ => 0⟩
          ⟨[1, 1], (List.range (1 * 1)).map (fun _ => 7)⟩).data :=
  ⟨rfl, rfl, rfl, resize_embedding_C1 ⟨0, false⟩ ⟨fun _ => 0, fun _ => 0⟩
    (fun _ => 7) ⟨1, 1, some 0, true, ⟨[1, 1], [3]⟩⟩ 1 1 1 rfl rfl rfl⟩

/-! ## Claim C3 -/

/-- Claim C3: The generator resize computes the number of added rows from the
target vocabulary's current length: given a projection of `V_old` rows and
width `H` and a target vocabulary of size `V_new ≥ V_old`, it produces a
weight of shape `(V_new, H)` and a bias of length `V_new`; rows below
`V_old` are copied unchanged, and the remaining rows of weight and bias are
exactly the freshly allocated blocks passed to the parameter initialiser.
The resized row count and the bias length both equal `V_new`. -/
theorem resize_generator_C3 (opt : ModelOpt) (envW envB : Env)
    (memW memB : Nat → ℚ) (old_linear : Linear) (V_old H V_new : Nat)
    (hout : old_linear.out_features = V_old)
    (hin : old_linear.in_features = H)
    (hw_shape : old_linear.weight.shape = [V_old, H])
    (hw_len : old_linear.weight.data.length = V_old * H)
    (hb_shape : old_linear.bias.shape = [V_old])
    (hb_len : old_linear.bias.data.length = V_old)
    (hle : V_old ≤ V_new) :
    ∃ new_linear : Linear,
      ModelResizer.resize_generator opt envW envB memW memB old_linear V_new =
        some new_linear ∧
      new_linear.out_features = V_new ∧
      new_linear.weight.shape = [V_new, H] ∧
      new_linear.bias.shape = [V_new] ∧
      new_linear.weight.data.take (V_old * H) = old_linear.weight.data ∧
      (∀ i < V_old, new_linear.weight.row i = old_linear.weight.row i) ∧
      new_linear.weight.data.drop (V_old * H) =
        (init_parameters opt envW ⟨[V_new - V_old, H],
          (List.range ((V_new - V_old) * H)).map memW⟩).data ∧
      new_linear.bias.data.take V_old = old_linear.bias.data ∧
      new_linear.bias.data.drop V_old =
        (init_parameters opt envB ⟨[V_new - V_old],
          (List.range (V_new - V_old)).map memB⟩).data := by
  subst hout hin
  have hsum : old_linear.out_features + (V_new - old_linear.out_features) =
      V_new := by omega
  have hcast : (V_new : Int) - (old_linear.out_features : Int) =
      ((V_new - old_linear.out_features : Nat) : Int) := (Nat.cast_sub hle).symm
  have hextW_shape :
      (init_parameters opt envW ⟨[V_new - old_linear.out_features,
        old_linear.in_features], (List.range ((V_new - old_linear.out_features) *
          old_linear.in_features)).map memW⟩).shape =
      [V_new - old_linear.out_features, old_linear.in_features] :=
    init_parameters_shape _ _ _
  have hextB_shape :
      (init_parameters opt envB ⟨[V_new - old_linear.out_features],
        (List.range (V_new - old_linear.out_features)).map memB⟩).shape =
      [V_new - old_linear.out_features] := init_parameters_shape _ _ _
  have hcatW := torchCat_eq old_linear.weight
    (init_parameters opt envW ⟨[V_new - old_linear.out_features,
      old_linear.in_features], (List.range ((V_new - old_linear.out_features) *
        old_linear.in_features)).map memW⟩)
    old_linear.out_features (V_new - old_linear.out_features)
    [old_linear.in_features] hw_shape hextW_shape
  have hcatB := torchCat_eq old_linear.bias
    (init_parameters opt envB ⟨[V_new - old_linear.out_features],
      (List.range (V_new - old_linear.out_features)).map memB⟩)
    old_linear.out_features (V_new - old_linear.out_features) [] hb_shape
    hextB_shape
  refine ⟨⟨old_linear.in_features, V_new,
    ⟨(old_linear.out_features + (V_new - old_linear.out_features)) ::
        [old_linear.in_features],
      old_linear.weight.data ++
        (init_parameters opt envW ⟨[V_new - old_linear.out_features,
          old_linear.in_features],
          (List.range ((V_new - old_linear.out_features) *
            old_linear.in_features)).map memW⟩).data⟩,
    ⟨(old_linear.out_features + (V_new - old_linear.out_features)) :: [],
      old_linear.bias.data ++
        (init_parameters opt envB ⟨[V_new - old_linear.out_features],
          (List.range (V_new - old_linear.out_features)).map memB⟩).data⟩⟩,
    ?_, rfl, by simp [hsum], by simp [hsum], List.take_left' hw_len, ?_,
    List.drop_left' hw_len, List.take_left' hb_len, List.drop_left' hb_len⟩
  · unfold ModelResizer.resize_generator
    rw [hcast]
    simp only [torchTensor_two, torchTensor_one, hcatW, hcatB]
    rw [if_pos ⟨by simp [hsum], by simp [hsum]⟩]
  · intro i hi
    have hmul : i * old_linear.in_features + old_linear.in_features ≤
        old_linear.out_features * old_linear.in_features := by
      have h1 : (i + 1) * old_linear.in_features ≤
          old_linear.out_features * old_linear.in_features :=
        Nat.mul_le_mul hi (le_refl _)
      rw [Nat.succ_mul] at h1
      exact h1
    unfold Tensor.row Tensor.rowSize
    simp only [hw_shape, List.drop_succ_cons, List.drop_zero, List.prod_cons,
      List.prod_nil, mul_one]
    rw [List.drop_append_of_le_length
        (by rw [hw_len]; exact le_trans (Nat.le_add_right _ _) hmul),
      List.take_append_of_le_length
        (by rw [List.length_drop, hw_len]
            exact Nat.le_sub_of_add_le (by rw [Nat.add_comm]; exact hmul))]

/-- Witness for C3: a concrete `1 × 1` projection grown to 2 rows. -/
theorem resize_generator_C3_witness :
    (⟨1, 1, ⟨[1, 1], [3]⟩, ⟨[1], [9]⟩⟩ : Linear).out_features = 1 ∧
    (⟨1, 1, ⟨[1, 1], [3]⟩, ⟨[1], [9]⟩⟩ : Linear).in_features = 1 ∧
    (⟨1, 1, ⟨[1, 1], [3]⟩, ⟨[1], [9]⟩⟩ : Linear).weight.shape = [1, 1] ∧
    (⟨1, 1, ⟨[1, 1], [3]⟩, ⟨[1], [9]⟩⟩ : Linear).weight.data.length = 1 * 1 ∧
    (⟨1, 1, ⟨[1, 1], [3]⟩, ⟨[1], [9]⟩⟩ : Linear).bias.shape = [1] ∧
    (⟨1, 1, ⟨[1, 1], [3]⟩, ⟨[1], [9]⟩⟩ : Linear).bias.data.length = 1 ∧
    1 ≤ 2 ∧
    ∃ new_linear : Linear,
      ModelResizer.resize_generator ⟨0, false⟩ ⟨fun _ => 0, fun _ => 0⟩
          ⟨fun _ => 0, fun _ => 0⟩ (fun _ => 7) (fun _ => 8)
          ⟨1, 1, ⟨[1, 1], [3]⟩, ⟨[1], [9]⟩⟩ 2 = some new_linear ∧
      new_linear.out_features = 2 ∧
      new_linear.weight.shape = [2, 1] ∧
      new_linear.bias.shape = [2] ∧
      new_linear.weight.data.take (1 * 1) =
        (⟨1, 1, ⟨[1, 1], [3]⟩, ⟨[1], [9]⟩⟩ : Linear).weight.data ∧
      (∀ i < 1, new_linear.weight.row i =
        (⟨1, 1, ⟨[1, 1], [3]⟩, ⟨[1], [9]⟩⟩ : Linear).weight.row i) ∧
      new_linear.weight.data.drop (1 * 1) =
        (init_parameters ⟨0, false⟩ ⟨fun _ => 0, fun _ => 0⟩
          ⟨[2 - 1, 1], (List.range ((2 - 1) * 1)).map (fun _ => 7)⟩).data ∧
      new_linear.bias.data.take 1 =
        (⟨1, 1, ⟨[1, 1], [3]⟩, ⟨[1], [9]⟩⟩ : Linear).bias.data ∧
      new_linear.bias.data.drop 1 =
        (init_parameters ⟨0, false⟩ ⟨fun _ => 0, fun _ => 0⟩
          ⟨[2 - 1], (List.range (2 - 1)).map (fun _ => 8)⟩).data :=
  ⟨rfl, rfl, rfl, rfl, rfl, rfl, by decide,
    resize_generator_C3 ⟨0, false⟩ ⟨fun _ => 0, fun _ => 0⟩
      ⟨fun _ => 0, fun _ => 0⟩ (fun _ => 7) (fun _ => 8)
      ⟨1, 1, ⟨[1, 1], [3]⟩, ⟨[1], [9]⟩⟩ 1 1 2 rfl rfl rfl rfl rfl rfl
      (by decide)⟩

/-! ## Claims C2 and C7: vocabulary extension -/

/-- The dictionary entries appended by the vocabulary extension: each token
of `l` bound to the next sequential index starting at `base`. -/
def pairsFrom (base : Nat) : List String → List (String × Nat)
  | [] => []
  | t :: ts => (t, base) :: pairsFrom (base + 1) ts

theorem pairsFrom_find_of_not_mem (t : String) (l : List String) (base : Nat)
    (h : t ∉ l) : dictFind t (pairsFrom base l) = none := by
  induction l generalizing base with
  | nil => rfl
  | cons a as ih =>
    have hta : ¬t = a := fun hh => h (hh ▸ List.mem_cons_self a as)
    simp only [pairsFrom, dictFind, if_neg hta]
    exact ih (base + 1) (fun hh => h (List.mem_cons_of_mem a hh))

theorem pairsFrom_find_get (l : List String) (hnd : l.Nodup) (base k : Nat)
    (hk : k < l.length) :
    dictFind (l.get ⟨k, hk⟩) (pairsFrom base l) = some (base + k) := by
  induction l generalizing base k with
  | nil => simp at hk
  | cons a as ih =>
    cases k with
    | zero => simp [pairsFrom, dictFind]
    | succ k' =>
      have hk' : k' < as.length := by simpa using hk
      have hget : (a :: as).get ⟨k' + 1, hk⟩ = as.get ⟨k', hk'⟩ := rfl
      have ha : ¬(as.get ⟨k', hk'⟩ = a) := by
        intro hh
        exact (List.nodup_cons.mp hnd).1 (hh ▸ List.get_mem as k' hk')
      rw [hget]
      simp only [pairsFrom, dictFind, if_neg ha]
      rw [ih (List.nodup_cons.mp hnd).2 (base + 1) k' hk']
      congr 1
      omega

theorem pairsFrom_find_some (l : List String) (t : String) (base n : Nat)
    (h : dictFind t (pairsFrom base l) = some n) :
    ∃ k, ∃ hk : k < l.length, l.get ⟨k, hk⟩ = t ∧ n = base + k := by
  induction l generalizing base with
  | nil => simp [pairsFrom, dictFind] at h
  | cons a as ih =>
    simp only [pairsFrom, dictFind] at h
    by_cases hta : t = a
    · rw [if_pos hta] at h
      injection h with h
      exact ⟨0, by simp, hta.symm, by omega⟩
    · rw [if_neg hta] at h
      obtain ⟨k, hk, hget, hn⟩ := ih (base + 1) h
      exact ⟨k + 1, by simpa using hk, hget, by omega⟩

theorem pairsFrom_mem (l : List String) (base : Nat) (p : String × Nat)
    (h : p ∈ pairsFrom base l) :
    ∃ k, ∃ hk : k < l.length, p = (l.get ⟨k, hk⟩, base + k) := by
  induction l generalizing base with
  | nil => simp [pairsFrom] at h
  | cons a as ih =>
    rcases List.mem_cons.mp h with rfl | h'
    · exact ⟨0, by simp, by simp⟩
    · obtain ⟨k, hk, hp⟩ := ih (base + 1) h'
      exact ⟨k + 1, by simpa using hk, by simpa [Nat.add_assoc, Nat.add_comm 1 k] using hp⟩

/-- Master lemma about the `_extend_field_vocab` loop, generalised over the
starting state: the fold appends, both to `itos` and to the accumulator, the
deduplicated sublist of candidate tokens absent from the starting `stoi`,
and appends to `stoi` the corresponding sequential bindings. -/
theorem extend_go (newItos : List String) :
    ∀ (v₀ : Vocab) (a₀ : List String),
    ∃ added : List String,
      newItos.foldl ModelResizer.extendStep (v₀, a₀) =
        (⟨v₀.itos ++ added, v₀.stoi ++ pairsFrom v₀.itos.length added⟩,
          a₀ ++ added) ∧
      List.Sublist added newItos ∧ added.Nodup ∧
      (∀ t, t ∈ added ↔ t ∈ newItos ∧ dictFind t v₀.stoi = none) := by
  induction newItos with
  | nil =>
    intro v₀ a₀
    exact ⟨[], by simp [pairsFrom], List.Sublist.refl [], List.nodup_nil,
      by simp⟩
  | cons t ts ih =>
    intro v₀ a₀
    rw [List.foldl_cons]
    by_cases h : (dictFind t v₀.stoi).isSome
    · have hstep : ModelResizer.extendStep (v₀, a₀) t = (v₀, a₀) := by
        simp [ModelResizer.extendStep, h]
      rw [hstep]
      obtain ⟨added, h1, h2, h3, h4⟩ := ih v₀ a₀
      refine ⟨added, h1, List.Sublist.cons t h2, h3, fun s => ?_⟩
      rw [h4 s]
      constructor
      · rintro ⟨hs, hf⟩
        exact ⟨List.mem_cons_of_mem t hs, hf⟩
      · rintro ⟨hs, hf⟩
        rcases List.mem_cons.mp hs with rfl | hs'
        · rw [hf] at h
          exact absurd h (by simp)
        · exact ⟨hs', hf⟩
    · have hnone : dictFind t v₀.stoi = none :=
        Option.not_isSome_iff_eq_none.mp h
      have hstep : ModelResizer.extendStep (v₀, a₀) t =
          (⟨v₀.itos ++ [t], v₀.stoi ++ [(t, v₀.itos.length)]⟩, a₀ ++ [t]) := by
        simp [ModelResizer.extendStep, h]
      rw [hstep]
      obtain ⟨added₁, h1, h2, h3, h4⟩ :=
        ih ⟨v₀.itos ++ [t], v₀.stoi ++ [(t, v₀.itos.length)]⟩ (a₀ ++ [t])
      have hfind_t : dictFind t (v₀.stoi ++ [(t, v₀.itos.length)]) =
          some v₀.itos.length := by
        rw [dictFind_append, hnone]
        simp [dictFind]
      have hv₁ : ∀ s, dictFind s (v₀.stoi ++ [(t, v₀.itos.length)]) = none ↔
          (dictFind s v₀.stoi = none ∧ s ≠ t) := by
        intro s
        rw [dictFind_append]
        rcases hfs : dictFind s v₀.stoi with _ | w <;> by_cases hst : s = t
        · subst hst
          simp [dictFind]
        · simp [dictFind, hst]
        · subst hst
          simp [dictFind]
        · simp [dictFind, hst]
      have htnotin : t ∉ added₁ := by
        intro hmem
        have hh := ((h4 t).mp hmem).2
        rw [hfind_t] at hh
        exact Option.noConfusion hh
      refine ⟨t :: added₁, ?_, List.Sublist.cons₂ t h2,
        List.nodup_cons.mpr ⟨htnotin, h3⟩, fun s => ?_⟩
      · rw [h1]
        have hitos : (v₀.itos ++ [t]) ++ added₁ = v₀.itos ++ (t :: added₁) := by
          simp
        have hstoi : (v₀.stoi ++ [(t, v₀.itos.length)]) ++
            pairsFrom (v₀.itos ++ [t]).length added₁ =
            v₀.stoi ++ pairsFrom v₀.itos.length (t :: added₁) := by
          simp [pairsFrom, List.length_append]
        have hacc : (a₀ ++ [t]) ++ added₁ = a₀ ++ (t :: added₁) := by
          simp
        rw [hitos, hstoi, hacc]
      · rw [List.mem_cons]
        constructor
        · rintro (rfl | hmem)
          · exact ⟨List.mem_cons_self s ts, hnone⟩
          · obtain ⟨hts, hfnone⟩ := (h4 s).mp hmem
            exact ⟨List.mem_cons_of_mem t hts, ((hv₁ s).mp hfnone).1⟩
        · rintro ⟨hs, hf⟩
          by_cases hst : s = t
          · exact Or.inl hst
          · rcases List.mem_cons.mp hs with rfl | hs'
            · exact absurd rfl hst
            · exact Or.inr ((h4 s).mpr ⟨hs', (hv₁ s).mpr ⟨hf, hst⟩⟩)

/-- Claim C2: `_extend_field_vocab` returns exactly the tokens present in the
candidate but absent from the current field, in the candidate's original
order (a sublist of the candidate) and without duplicates (membership is
checked against the growing reverse map), and appends them to the current
field: `itos` is extended by exactly the added tokens and `stoi` by their
sequential bindings starting at the old size. -/
theorem extend_field_vocab_C2 (cur : Vocab) (newItos : List String) :
    (ModelResizer.extend_field_vocab cur newItos).1.itos =
      cur.itos ++ (ModelResizer.extend_field_vocab cur newItos).2 ∧
    (ModelResizer.extend_field_vocab cur newItos).1.stoi =
      cur.stoi ++ pairsFrom cur.itos.length
        (ModelResizer.extend_field_vocab cur newItos).2 ∧
    List.Sublist (ModelResizer.extend_field_vocab cur newItos).2 newItos ∧
    (ModelResizer.extend_field_vocab cur newItos).2.Nodup ∧
    (∀ t, t ∈ (ModelResizer.extend_field_vocab cur newItos).2 ↔
      t ∈ newItos ∧ dictFind t cur.stoi = none) := by
  obtain ⟨added, h1, h2, h3, h4⟩ := extend_go newItos cur []
  have he : ModelResizer.extend_field_vocab cur newItos =
      (⟨cur.itos ++ added, cur.stoi ++ pairsFrom cur.itos.length added⟩,
        added) := by
    unfold ModelResizer.extend_field_vocab
    rw [h1]
    simp
  rw [he]
  exact ⟨rfl, rfl, h2, h3, h4⟩

/-- Claim C7: The vocabulary-field invariant is preserved by
`_extend_field_vocab`, and the extension is strictly append-only: the first
`len(itos)` tokens and the first `len(stoi)` bindings are unchanged, so
every index that existed before maps to the same token after. -/
theorem extend_field_vocab_C7 (cur : Vocab) (newItos : List String)
    (h : cur.WF) :
    (ModelResizer.extend_field_vocab cur newItos).1.WF ∧
    (ModelResizer.extend_field_vocab cur newItos).1.itos.take
      cur.itos.length = cur.itos ∧
    (ModelResizer.extend_field_vocab cur newItos).1.stoi.take
      cur.stoi.length = cur.stoi := by
  obtain ⟨added, h1, h2, h3, h4⟩ := extend_go newItos cur []
  have he : (ModelResizer.extend_field_vocab cur newItos).1 =
      ⟨cur.itos ++ added, cur.stoi ++ pairsFrom cur.itos.length added⟩ := by
    unfold ModelResizer.extend_field_vocab
    rw [h1]
  obtain ⟨hnd, hget, hentries⟩ := h
  have hfind_mem : ∀ s ∈ cur.itos, (dictFind s cur.stoi).isSome := by
    intro s hs
    obtain ⟨i, hi⟩ := List.mem_iff_get.mp hs
    rw [← hi, hget i]
    rfl
  rw [he]
  refine ⟨⟨?_, ?_, ?_⟩, List.take_left cur.itos added,
    List.take_left cur.stoi _⟩
  · refine List.nodup_append.mpr ⟨hnd, h3, fun s hs hsadd => ?_⟩
    have hnone := ((h4 s).mp hsadd).2
    have hsome := hfind_mem s hs
    rw [hnone] at hsome
    exact Bool.noConfusion hsome
  · intro i
    by_cases hi : i.val < cur.itos.length
    · have hg : (cur.itos ++ added).get i = cur.itos.get ⟨i.val, hi⟩ := by
        simp [List.get_eq_getElem, List.getElem_append_left hi]
      rw [hg, dictFind_append, hget ⟨i.val, hi⟩]
      rfl
    · have hle : cur.itos.length ≤ i.val := le_of_not_lt hi
      have hk : i.val - cur.itos.length < added.length := by
        have hlen : i.val < cur.itos.length + added.length := by
          simpa using i.isLt
        omega
      have hg : (cur.itos ++ added).get i =
          added.get ⟨i.val - cur.itos.length, hk⟩ := by
        simp only [List.get_eq_getElem]
        exact List.getElem_append_right hle
      have hsnone : dictFind (added.get ⟨i.val - cur.itos.length, hk⟩)
          cur.stoi = none :=
        ((h4 _).mp (List.get_mem added _ hk)).2
      rw [hg, dictFind_append, hsnone, Option.none_or,
        pairsFrom_find_get added h3 cur.itos.length _ hk]
      congr 1
      omega
  · intro p hp
    rcases List.mem_append.mp hp with hp' | hp'
    · obtain ⟨hlt, hgetd⟩ := hentries p hp'
      constructor
      · rw [List.length_append]
        omega
      · rw [List.getD_append _ _ _ _ hlt]
        exact hgetd
    · obtain ⟨k, hk, rfl⟩ := pairsFrom_mem added cur.itos.length p hp'
      constructor
      · rw [List.length_append]
        omega
      · rw [List.getD_append_right _ _ _ _ (Nat.le_add_right _ _)]
        simp only [Nat.add_sub_cancel_left]
        rw [List.getD_eq_getElem added "" hk]
        simp [List.get_eq_getElem]

/-- Witness for C7: extending a concrete well-formed one-token field. -/
theorem extend_field_vocab_C7_witness :
    (⟨["a"], [("a", 0)]⟩ : Vocab).WF ∧
    ((ModelResizer.extend_field_vocab ⟨["a"], [("a", 0)]⟩ ["b", "a"]).1.WF ∧
      (ModelResizer.extend_field_vocab ⟨["a"], [("a", 0)]⟩
        ["b", "a"]).1.itos.take (⟨["a"], [("a", 0)]⟩ : Vocab).itos.length =
        (⟨["a"], [("a", 0)]⟩ : Vocab).itos ∧
      (ModelResizer.extend_field_vocab ⟨["a"], [("a", 0)]⟩
        ["b", "a"]).1.stoi.take (⟨["a"], [("a", 0)]⟩ : Vocab).stoi.length =
        (⟨["a"], [("a", 0)]⟩ : Vocab).stoi) :=
  ⟨by decide, extend_field_vocab_C7 ⟨["a"], [("a", 0)]⟩ ["b", "a"] (by decide)⟩

/-! ## Claim C6 -/

theorem leadsWith_append (p rest : List Char) : leadsWith p (p ++ rest) = true := by
  induction p with
  | nil => rfl
  | cons a as ih => simp [leadsWith, ih]

theorem occursIn_of_leadsWith (p l : List Char) (h : leadsWith p l = true) :
    occursIn p l = true := by
  cases l with
  | nil => exact h
  | cons a rest => simp [occursIn, h]

theorem generator_key_pyIn (k : String) :
    pyIn "generator" ("generator." ++ k) = true := by
  unfold pyIn
  have h1 : ("generator." ++ k).toList =
      "generator".toList ++ ('.' :: k.toList) := rfl
  rw [h1]
  exact occursIn_of_leadsWith _ _ (leadsWith_append _ _)

/-- Claim C6: `save_checkpoint` partitions the model's parameters into exactly
two state groups — the generator's parameters in the `generator` entry and
all the others in the `model` entry (together they are a permutation of the
full state dict) — and the written record carries the merged vocabulary as
`vocab`, the model options as `opt`, and, unmodified, the optimizer-state
blob of the originally loaded checkpoint as `optim`. -/
theorem save_checkpoint_C6 {β : Type} (s : ResizerState β)
    (hbase : ∀ kv ∈ s.model.base_named_parameters,
      pyIn "generator" kv.1 = false) :
    (ModelResizer.save_checkpoint s).model = s.model.base_named_parameters ∧
    (ModelResizer.save_checkpoint s).generator =
      s.model.generator_named_parameters ∧
    List.Perm ((ModelResizer.save_checkpoint s).model ++
        s.model.state_dict.filter (fun kv => pyIn "generator" kv.1))
      s.model.state_dict ∧
    (ModelResizer.save_checkpoint s).vocab = s.vocab ∧
    (ModelResizer.save_checkpoint s).opt = s.model_opt ∧
    (ModelResizer.save_checkpoint s).optim = s.loaded_optim := by
  have hfilter_base : s.model.base_named_parameters.filter
      (fun kv => !(pyIn "generator" kv.1)) = s.model.base_named_parameters :=
    List.filter_eq_self.mpr (fun a ha => by rw [hbase a ha]; rfl)
  have hfilter_gen : (s.model.generator_named_parameters.map
      (fun kv => ("generator." ++ kv.1, kv.2))).filter
      (fun kv => !(pyIn "generator" kv.1)) = [] := by
    refine List.filter_eq_nil_iff.mpr (fun a ha => ?_)
    obtain ⟨kv, -, rfl⟩ := List.mem_map.mp ha
    simp [generator_key_pyIn]
  have hmodel : (ModelResizer.save_checkpoint s).model =
      s.model.base_named_parameters := by
    show (s.model.state_dict.filter (fun kv => !(pyIn "generator" kv.1))) = _
    unfold ResizerModel.state_dict
    rw [List.filter_append, hfilter_base, hfilter_gen, List.append_nil]
  refine ⟨hmodel, rfl, ?_, rfl, rfl, rfl⟩
  show List.Perm (s.model.state_dict.filter (fun kv => !(pyIn "generator" kv.1))
      ++ s.model.state_dict.filter (fun kv => pyIn "generator" kv.1)) _
  exact List.Perm.trans List.perm_append_comm
    (List.filter_append_perm _ s.model.state_dict)

/-- Witness for C6: a model with one encoder parameter and one generator
parameter. -/
theorem save_checkpoint_C6_witness :
    (∀ kv ∈ (⟨⟨[("encoder.w", ⟨[1], [1]⟩)], [("w", ⟨[1], [2]⟩)]⟩,
        [("src", ⟨["a"], [("a", 0)]⟩)], ⟨0, false⟩, (42 : Nat)⟩ :
        ResizerState Nat).model.base_named_parameters,
      pyIn "generator" kv.1 = false) ∧
    ((ModelResizer.save_checkpoint (⟨⟨[("encoder.w", ⟨[1], [1]⟩)],
        [("w", ⟨[1], [2]⟩)]⟩, [("src", ⟨["a"], [("a", 0)]⟩)], ⟨0, false⟩,
        (42 : Nat)⟩ : ResizerState Nat)).optim = 42) :=
  ⟨by decide, (save_checkpoint_C6 (⟨⟨[("encoder.w", ⟨[1], [1]⟩)],
    [("w", ⟨[1], [2]⟩)]⟩, [("src", ⟨["a"], [("a", 0)]⟩)], ⟨0, false⟩,
    (42 : Nat)⟩ : ResizerState Nat) (by decide)).2.2.2.2.2⟩

end RxnOnmtUtils
